import Mathlib

/-!
Shallow embedding of `events.go` from the gocql repository: the event
debouncer (`eventDeouncer`), the node event aggregator (`handleNodeEvent`),
the node lifecycle handlers (`handleNewNode`, `handleRemovedNode`,
`handleNodeUp`, `handleNodeDown`) and the dispatch entry point
(`handleEvent`).

The ring, pool, control connection and host-discovery collaborators are not
part of `events.go`; the spec describes them only at their interface
boundary (§6).  Ring state is carried explicitly as an association list;
calls to the pool, the control connection, the ring and the host-discovery
collaborator are recorded in an explicit `Action` trace so that theorems can
speak about which collaborator calls a handler performs and in which order.
Concurrency (mutex, timer, goroutines) is abstracted away: the debouncer is
modelled by its buffer state, `flush` by the batch it hands to the callback.
-/

namespace gocql

/-- Host availability states used by `events.go` (`NodeUp`, `NodeDown`). -/
inductive nodeState where
  | NodeUp
  | NodeDown
deriving Repr, DecidableEq

/-- Modelled from the spec: a Host is external, owned by the ring (§3); it
has an address (`peer`, the string form of the IP), a port and an
availability state.  Only the parts `events.go` touches are modelled. -/
structure HostInfo where
  peer : String
  port : Nat
  state : nodeState
deriving Repr, DecidableEq

/-- Modelled from the spec: `host.setState(Up|Down)` (§6) sets the host's
availability state. -/
def HostInfo.setState (h : HostInfo) (s : nodeState) : HostInfo :=
  { h with state := s }

/-- Modelled from the spec: `host.update(newInfo)` (§6) copies the freshly
fetched metadata into the existing entry in place; the availability state is
not part of the fetched metadata. -/
def HostInfo.update (h newInfo : HostInfo) : HostInfo :=
  { newInfo with state := h.state }

/-- The event frames `events.go` distinguishes: topology-change and
status-change frames carry a host IP (modelled by its string form), a port
and a change kind string; the three schema-change frames are recognized and
dropped; `otherFrame` stands for any frame hitting the `default` branch of
`handleEvent`. -/
inductive frame where
  | topologyChangeEventFrame (host : String) (port : Nat) (change : String)
  | statusChangeEventFrame (host : String) (port : Nat) (change : String)
  | schemaChangeKeyspace
  | schemaChangeFunction
  | schemaChangeTable
  | otherFrame
deriving Repr, DecidableEq

/-- One collaborator call made by the lifecycle handlers, recorded in order:
control-connection fetch, ring mutations, host mutations, pool calls and the
host-discovery ring refresh (spec §6 interface boundary). -/
inductive Action where
  | fetchHostInfo (host : String) (port : Nat)
  | ringAddHostIfMissing (h : HostInfo)
  | ringRemoveHost (addr : String)
  | hostUpdate (addr : String)
  | hostSetState (addr : String) (s : nodeState)
  | poolAddHost (h : HostInfo)
  | poolRemoveHost (addr : String)
  | poolHostUp (h : HostInfo)
  | poolHostDown (addr : String)
  | refreshRing
deriving Repr, DecidableEq

/-- `eventDeouncer` (name kept from the source, typo included): the buffer
state guarded by the mutex.  The timer, mutex, callback and quit channel are
concurrency machinery and are not part of the state model. -/
structure eventDeouncer where
  name : String
  events : List frame
deriving Repr, DecidableEq

/-- `eventBufferSize` from `events.go`. -/
def eventBufferSize : Nat := 1000

/-- `flush`: if the pending sequence is empty, return with no callback
(`none`); otherwise detach the pending sequence, hand it to the callback
(the returned batch) and replace the buffer with a fresh empty one. -/
def eventDeouncer.flush (e : eventDeouncer) : eventDeouncer × Option (List frame) :=
  if e.events.length = 0 then (e, none)
  else ({ e with events := [] }, some e.events)

/-- `debounce`: append the frame to the pending sequence if it is under
capacity, otherwise drop it (the timer reset is not modelled). -/
def eventDeouncer.debounce (e : eventDeouncer) (f : frame) : eventDeouncer :=
  if e.events.length < eventBufferSize then { e with events := e.events ++ [f] }
  else e

/-- Modelled from the spec: the ring's `getHost(address) → host-or-absent`
(§6); the ring is an association list keyed by host address string. -/
def getHost (addr : String) : List (String × HostInfo) → Option HostInfo
  | [] => none
  | (k, h) :: rest => if k = addr then some h else getHost addr rest

/-- Modelled from the spec: replace the entry for `addr` in the ring with
`h` (the effect of mutating the host the ring points to in place). -/
def setHost (addr : String) (h : HostInfo) : List (String × HostInfo) → List (String × HostInfo)
  | [] => []
  | (k, h0) :: rest =>
    if k = addr then (k, h) :: rest else (k, h0) :: setHost addr h rest

/-- Modelled from the spec: the ring's `removeHost(address)` (§6); removing
an absent host is not an error. -/
def removeHost (addr : String) (r : List (String × HostInfo)) : List (String × HostInfo) :=
  r.filter (fun kv => kv.1 ≠ addr)

/-- Modelled from the spec: the ring's
`addHostIfMissing(hostInfo) → (existing, wasAdded)` (§6): insert the host if
its address is absent (returning `none` for "was added"), otherwise leave
the ring unchanged and return the existing entry. -/
def addHostIfMissing (h : HostInfo) (r : List (String × HostInfo)) :
    List (String × HostInfo) × Option HostInfo :=
  match getHost h.peer r with
  | some existing => (r, some existing)
  | none => (r ++ [(h.peer, h)], none)

/-- The `Session` state `events.go` touches: the control connection (absent
when `s.control == nil`, otherwise its `fetchHostInfo`, with `none`
modelling a fetch error), the ring, and the node-event debouncer.  The pool
and host-discovery collaborators hold no state visible to this core; their
calls appear only in the `Action` trace. -/
structure Session where
  control : Option (String → Nat → Option HostInfo)
  ring : List (String × HostInfo)
  nodeEvents : eventDeouncer

/-- `handleNewNode`: no-op without a control connection; fetch host info
(abort on error); add the host to the ring if missing, otherwise update the
existing entry in place and continue with it; then `pool.addHost` and
`refreshRing`. -/
def handleNewNode (s : Session) (host : String) (port : Nat) : Session × List Action :=
  match s.control with
  | none => (s, [])
  | some fetchHostInfo =>
    match fetchHostInfo host port with
    | none => (s, [.fetchHostInfo host port])
    | some hostInfo =>
      match addHostIfMissing hostInfo s.ring with
      | (r, none) =>
        ({ s with ring := r },
         [.fetchHostInfo host port, .ringAddHostIfMissing hostInfo,
          .poolAddHost hostInfo, .refreshRing])
      | (_, some existing) =>
        let updated := existing.update hostInfo
        ({ s with ring := setHost hostInfo.peer updated s.ring },
         [.fetchHostInfo host port, .ringAddHostIfMissing hostInfo,
          .hostUpdate hostInfo.peer, .poolAddHost updated, .refreshRing])

/-- `handleRemovedNode`: `pool.removeHost(addr)`, `ring.removeHost(addr)`,
then `refreshRing`; the port is unused. -/
def handleRemovedNode (s : Session) (ip : String) (port : Nat) : Session × List Action :=
  let addr := ip
  ({ s with ring := removeHost addr s.ring },
   [.poolRemoveHost addr, .ringRemoveHost addr, .refreshRing])

/-- `handleNodeUp`: if the ring knows the host, set its state to `NodeUp`
and notify `pool.hostUp` with it; otherwise fall through to
`handleNewNode`. -/
def handleNodeUp (s : Session) (ip : String) (port : Nat) : Session × List Action :=
  let addr := ip
  match getHost addr s.ring with
  | some host =>
    ({ s with ring := setHost addr (host.setState .NodeUp) s.ring },
     [.hostSetState addr .NodeUp, .poolHostUp (host.setState .NodeUp)])
  | none => handleNewNode s ip port

/-- `handleNodeDown`: if the ring knows the host, set its state to
`NodeDown`; in every case notify `pool.hostDown(addr)`. -/
def handleNodeDown (s : Session) (ip : String) (port : Nat) : Session × List Action :=
  let addr := ip
  match getHost addr s.ring with
  | some host =>
    ({ s with ring := setHost addr (host.setState .NodeDown) s.ring },
     [.hostSetState addr .NodeDown, .poolHostDown addr])
  | none => (s, [.poolHostDown addr])

/-- The per-host accumulator `nodeEvent` built inside `handleNodeEvent`:
final change kind, host IP (string form) and port. -/
structure nodeEvent where
  change : String
  host : String
  port : Nat
deriving Repr, DecidableEq

/-- The host key, change kind and port of a topology- or status-change
frame; `none` for every other frame (the aggregator's `switch` ignores
them). -/
def frameInfo : frame → Option (String × String × Nat)
  | .topologyChangeEventFrame host port change => some (host, change, port)
  | .statusChangeEventFrame host port change => some (host, change, port)
  | _ => none

/-- Lookup in the per-host accumulator map (`events[f.host.String()]`),
modelled as an association list in insertion order. -/
def lookupEvent (addr : String) : List (String × nodeEvent) → Option nodeEvent
  | [] => none
  | (k, e) :: rest => if k = addr then some e else lookupEvent addr rest

/-- Whether the accumulator map already has an entry for `addr`. -/
def containsKey (addr : String) : List (String × nodeEvent) → Bool
  | [] => false
  | (k, _) :: rest => if k = addr then true else containsKey addr rest

/-- Overwrite the change kind of the entry for `addr`
(`event.change = f.change` on the pointer held in the map). -/
def setChange (addr change : String) : List (String × nodeEvent) → List (String × nodeEvent)
  | [] => []
  | (k, e) :: rest =>
    if k = addr then (k, { e with change := change }) :: rest
    else (k, e) :: setChange addr change rest

/-- One step of the aggregation loop of `handleNodeEvent`: a topology- or
status-change frame creates the accumulator entry on first sight (capturing
host and port) and overwrites its change kind; other frames are skipped. -/
def applyFrame (acc : List (String × nodeEvent)) (f : frame) : List (String × nodeEvent) :=
  match frameInfo f with
  | none => acc
  | some (host, change, port) =>
    if containsKey host acc then setChange host change acc
    else acc ++ [(host, { change := change, host := host, port := port })]

/-- The aggregation loop of `handleNodeEvent` over the delivered batch.  The
Go map is modelled as an association list in insertion order (Go map
iteration order across distinct hosts is unspecified; no claim depends on
it). -/
def aggregate (frames : List frame) : List (String × nodeEvent) :=
  frames.foldl applyFrame []

/-- The dispatch `switch` of `handleNodeEvent` for one resolved event:
`MOVED_NODE` and unknown change kinds fall through with no handler call. -/
def dispatchNodeEvent (s : Session) (e : nodeEvent) : Session × List Action :=
  match e.change with
  | "NEW_NODE" => handleNewNode s e.host e.port
  | "REMOVED_NODE" => handleRemovedNode s e.host e.port
  | "MOVED_NODE" => (s, [])
  | "UP" => handleNodeUp s e.host e.port
  | "DOWN" => handleNodeDown s e.host e.port
  | _ => (s, [])

/-- Dispatch every resolved event of the batch, threading the session state
and concatenating the collaborator-call traces. -/
def dispatchAll (s : Session) (evs : List (String × nodeEvent)) : Session × List Action :=
  evs.foldl
    (fun acc kv =>
      let r := dispatchNodeEvent acc.1 kv.2
      (r.1, acc.2 ++ r.2))
    (s, [])

/-- `handleNodeEvent`: aggregate the batch per host, then dispatch each
host's resolved event. -/
def handleNodeEvent (s : Session) (frames : List frame) : Session × List Action :=
  dispatchAll s (aggregate frames)

/-- `handleEvent`: the dispatch entry point.  `none` models a frame that
failed to parse (logged and discarded).  Topology- and status-change frames
go to `nodeEvents.debounce`; schema-change frames are dropped; the default
branch logs and discards.  No collaborator is called and no error is
returned in any case. -/
def handleEvent (s : Session) (parsed : Option frame) : Session × List Action :=
  match parsed with
  | none => (s, [])
  | some f =>
    match f with
    | .schemaChangeKeyspace => (s, [])
    | .schemaChangeFunction => (s, [])
    | .schemaChangeTable => (s, [])
    | .topologyChangeEventFrame host port change =>
      ({ s with nodeEvents := s.nodeEvents.debounce (.topologyChangeEventFrame host port change) }, [])
    | .statusChangeEventFrame host port change =>
      ({ s with nodeEvents := s.nodeEvents.debounce (.statusChangeEventFrame host port change) }, [])
    | .otherFrame => (s, [])

/-- One step of "the change kind of the last topology- or status-change
notification for `addr` in batch order": a matching frame overwrites the
accumulated change kind, every other frame keeps it. -/
def lastStep (addr : String) (o : Option String) (f : frame) : Option String :=
  match frameInfo f with
  | some (host, change, _) => if host = addr then some change else o
  | none => o

/-- `lastChangeAux addr o frames`: the last change kind for `addr` in
`frames`, falling back to `o` when `frames` has none. -/
def lastChangeAux (addr : String) (o : Option String) (frames : List frame) : Option String :=
  frames.foldl (lastStep addr) o

/-- The change kind of the last topology- or status-change notification for
`addr` in the batch, or `none` when the batch has none. -/
def lastChangeFor (addr : String) (frames : List frame) : Option String :=
  lastChangeAux addr none frames

/-- One step of "the host and port of the first topology- or status-change
notification for `addr` in batch order": once a value is accumulated it is
kept, otherwise a matching frame supplies its host and port. -/
def firstStep (addr : String) (o : Option (String × Nat)) (f : frame) : Option (String × Nat) :=
  match o with
  | some x => some x
  | none =>
    match frameInfo f with
    | some (host, _, port) => if host = addr then some (host, port) else none
    | none => none

/-- `firstHostPortAux addr o frames`: the host and port of the first frame
for `addr` in `frames`, with `o` as the already-accumulated value. -/
def firstHostPortAux (addr : String) (o : Option (String × Nat)) (frames : List frame) :
    Option (String × Nat) :=
  frames.foldl (firstStep addr) o

/-- The host and port carried by the first topology- or status-change
notification for `addr` in the batch. -/
def firstHostPortFor (addr : String) (frames : List frame) : Option (String × Nat) :=
  firstHostPortAux addr none frames

/-- A fresh debouncer buffer, used by concrete witnesses. -/
def exDeouncer : eventDeouncer :=
  { name := "node events", events := [] }

/-- A concrete host sitting in the ring, used by concrete witnesses. -/
def exHost : HostInfo :=
  { peer := "10.0.0.1", port := 9042, state := .NodeDown }

/-- A concrete host as returned by a metadata fetch. -/
def exFetched : HostInfo :=
  { peer := "10.0.0.1", port := 9042, state := .NodeUp }

/-- A control connection whose metadata fetches always succeed. -/
def exFetch : String → Nat → Option HostInfo :=
  fun _ _ => some exFetched

/-- A session whose ring holds `exHost`. -/
def exSession : Session :=
  { control := some exFetch, ring := [("10.0.0.1", exHost)], nodeEvents := exDeouncer }

/-- A session with a working control connection and an empty ring. -/
def exEmptySession : Session :=
  { control := some exFetch, ring := [], nodeEvents := exDeouncer }

/-- A session with no control connection configured. -/
def exNoControl : Session :=
  { control := none, ring := [], nodeEvents := exDeouncer }

/-- A session whose control connection fails every metadata fetch. -/
def exFailControl : Session :=
  { control := some (fun _ _ => none), ring := [], nodeEvents := exDeouncer }

/-! ### Lemmas about the per-host accumulator -/

theorem containsKey_eq_isSome (addr : String) (l : List (String × nodeEvent)) :
    containsKey addr l = (lookupEvent addr l).isSome := by
  induction l with
  | nil => rfl
  | cons kv rest ih =>
    obtain ⟨k, e⟩ := kv
    by_cases h : k = addr <;> simp [containsKey, lookupEvent, h, ih]

theorem lookupEvent_append_of_some (addr : String) (l1 l2 : List (String × nodeEvent))
    (e : nodeEvent) (h : lookupEvent addr l1 = some e) :
    lookupEvent addr (l1 ++ l2) = some e := by
  induction l1 with
  | nil => simp [lookupEvent] at h
  | cons kv rest ih =>
    obtain ⟨k, e0⟩ := kv
    by_cases hk : k = addr <;> simp_all [lookupEvent, hk]

theorem lookupEvent_append_of_none (addr : String) (l1 l2 : List (String × nodeEvent))
    (h : lookupEvent addr l1 = none) :
    lookupEvent addr (l1 ++ l2) = lookupEvent addr l2 := by
  induction l1 with
  | nil => simp [lookupEvent]
  | cons kv rest ih =>
    obtain ⟨k, e0⟩ := kv
    by_cases hk : k = addr <;> simp_all [lookupEvent, hk]

theorem setChange_lookup_self (addr c : String) (l : List (String × nodeEvent)) :
    lookupEvent addr (setChange addr c l) =
      (lookupEvent addr l).map (fun e => { e with change := c }) := by
  induction l with
  | nil => rfl
  | cons kv rest ih =>
    obtain ⟨k, e⟩ := kv
    by_cases h : k = addr <;> simp [setChange, lookupEvent, h, ih]

theorem setChange_lookup_ne (addr addr2 c : String) (h : addr2 ≠ addr)
    (l : List (String × nodeEvent)) :
    lookupEvent addr (setChange addr2 c l) = lookupEvent addr l := by
  induction l with
  | nil => rfl
  | cons kv rest ih =>
    obtain ⟨k, e⟩ := kv
    by_cases hk : k = addr2
    · subst hk
      simp [setChange, lookupEvent, h, ih]
    · by_cases hk2 : k = addr <;> simp [setChange, lookupEvent, hk, hk2, ih, Ne.symm h]

theorem lookupEvent_applyFrame_change (addr : String) (acc : List (String × nodeEvent))
    (f : frame) :
    (lookupEvent addr (applyFrame acc f)).map nodeEvent.change =
      lastStep addr ((lookupEvent addr acc).map nodeEvent.change) f := by
  cases hf : frameInfo f with
  | none => simp [applyFrame, hf, lastStep]
  | some x =>
    obtain ⟨host, c, p⟩ := x
    by_cases hh : host = addr
    · subst hh
      cases hc : containsKey host acc with
      | true =>
        obtain ⟨e, he⟩ := Option.isSome_iff_exists.mp (by rw [← containsKey_eq_isSome, hc])
        simp [applyFrame, hf, hc, lastStep, setChange_lookup_self, he]
      | false =>
        have hnone : lookupEvent host acc = none := by
          have := containsKey_eq_isSome host acc
          rw [hc] at this
          exact Option.not_isSome_iff_eq_none.mp (by simp [← this])
        simp [applyFrame, hf, hc, lastStep, lookupEvent_append_of_none host acc _ hnone,
          lookupEvent, hnone]
    · cases hc : containsKey host acc with
      | true =>
        simp [applyFrame, hf, hc, lastStep, hh, setChange_lookup_ne addr host c hh]
      | false =>
        cases ha : lookupEvent addr acc with
        | some e =>
          simp [applyFrame, hf, hc, lastStep, hh,
            lookupEvent_append_of_some addr acc _ e ha, ha]
        | none =>
          simp [applyFrame, hf, hc, lastStep, hh,
            lookupEvent_append_of_none addr acc _ ha, lookupEvent, ha]

theorem lookupEvent_applyFrame_hostport (addr : String) (acc : List (String × nodeEvent))
    (f : frame) :
    (lookupEvent addr (applyFrame acc f)).map (fun e => (e.host, e.port)) =
      firstStep addr ((lookupEvent addr acc).map (fun e => (e.host, e.port))) f := by
  cases hf : frameInfo f with
  | none =>
    cases ha : lookupEvent addr acc <;> simp [applyFrame, hf, firstStep, ha]
  | some x =>
    obtain ⟨host, c, p⟩ := x
    by_cases hh : host = addr
    · subst hh
      cases hc : containsKey host acc with
      | true =>
        obtain ⟨e, he⟩ := Option.isSome_iff_exists.mp (by rw [← containsKey_eq_isSome, hc])
        simp [applyFrame, hf, hc, firstStep, setChange_lookup_self, he]
      | false =>
        have hnone : lookupEvent host acc = none := by
          have := containsKey_eq_isSome host acc
          rw [hc] at this
          exact Option.not_isSome_iff_eq_none.mp (by simp [← this])
        simp [applyFrame, hf, hc, firstStep, lookupEvent_append_of_none host acc _ hnone,
          lookupEvent, hnone]
    · cases hc : containsKey host acc with
      | true =>
        cases ha : lookupEvent addr acc <;>
          simp [applyFrame, hf, hc, firstStep, hh, setChange_lookup_ne addr host c hh, ha]
      | false =>
        cases ha : lookupEvent addr acc with
        | some e =>
          simp [applyFrame, hf, hc, firstStep, hh,
            lookupEvent_append_of_some addr acc _ e ha, ha]
        | none =>
          simp [applyFrame, hf, hc, firstStep, hh,
            lookupEvent_append_of_none addr acc _ ha, lookupEvent, ha]

theorem aggregate_foldl_change (addr : String) (frames : List frame) :
    ∀ acc, (lookupEvent addr (frames.foldl applyFrame acc)).map nodeEvent.change =
      lastChangeAux addr ((lookupEvent addr acc).map nodeEvent.change) frames := by
  induction frames with
  | nil => intro acc; rfl
  | cons f rest ih =>
    intro acc
    simp only [List.foldl_cons, lastChangeAux] at *
    rw [ih (applyFrame acc f), lookupEvent_applyFrame_change]

theorem aggregate_foldl_hostport (addr : String) (frames : List frame) :
    ∀ acc, (lookupEvent addr (frames.foldl applyFrame acc)).map (fun e => (e.host, e.port)) =
      firstHostPortAux addr ((lookupEvent addr acc).map (fun e => (e.host, e.port))) frames := by
  induction frames with
  | nil => intro acc; rfl
  | cons f rest ih =>
    intro acc
    simp only [List.foldl_cons, firstHostPortAux] at *
    rw [ih (applyFrame acc f), lookupEvent_applyFrame_hostport]

theorem setChange_keys (addr c : String) (l : List (String × nodeEvent)) :
    (setChange addr c l).map Prod.fst = l.map Prod.fst := by
  induction l with
  | nil => rfl
  | cons kv rest ih =>
    obtain ⟨k, e⟩ := kv
    by_cases h : k = addr <;> simp [setChange, h, ih]

theorem not_mem_keys_of_containsKey_false (addr : String) (l : List (String × nodeEvent))
    (h : containsKey addr l = false) : addr ∉ l.map Prod.fst := by
  induction l with
  | nil => simp
  | cons kv rest ih =>
    obtain ⟨k, e⟩ := kv
    by_cases hk : k = addr
    · simp [containsKey, hk] at h
    · simp only [containsKey, hk, if_false] at h
      simp [hk, ih h]
      exact fun heq => hk heq.symm

theorem applyFrame_keys_nodup (acc : List (String × nodeEvent)) (f : frame)
    (h : (acc.map Prod.fst).Nodup) : ((applyFrame acc f).map Prod.fst).Nodup := by
  cases hf : frameInfo f with
  | none => simpa [applyFrame, hf] using h
  | some x =>
    obtain ⟨host, c, p⟩ := x
    cases hc : containsKey host acc with
    | true => simpa [applyFrame, hf, hc, setChange_keys] using h
    | false =>
      have hmem := not_mem_keys_of_containsKey_false host acc hc
      simp [applyFrame, hf, hc, List.nodup_append, h, hmem]

theorem aggregate_keys_nodup (frames : List frame) :
    ((aggregate frames).map Prod.fst).Nodup := by
  have key : ∀ (fs : List frame) (acc : List (String × nodeEvent)),
      (acc.map Prod.fst).Nodup → ((fs.foldl applyFrame acc).map Prod.fst).Nodup := by
    intro fs
    induction fs with
    | nil => intro acc h; exact h
    | cons f rest ih => intro acc h; exact ih _ (applyFrame_keys_nodup acc f h)
  exact key frames [] (by simp)

/-! ### Lemmas about the debouncer buffer -/

theorem foldl_debounce_events (frames : List frame) :
    ∀ d : eventDeouncer, d.events.length ≤ eventBufferSize →
      (frames.foldl eventDeouncer.debounce d).events = (d.events ++ frames).take eventBufferSize := by
  induction frames with
  | nil =>
    intro d h
    simp [List.take_of_length_le h]
  | cons f rest ih =>
    intro d h
    by_cases hl : d.events.length < eventBufferSize
    · have step : eventDeouncer.debounce d f = { d with events := d.events ++ [f] } := by
        simp [eventDeouncer.debounce, hl]
      rw [List.foldl_cons, step, ih _ (by simpa using hl)]
      simp
    · have hC : d.events.length = eventBufferSize := le_antisymm h (not_lt.mp hl)
      have step : eventDeouncer.debounce d f = d := by
        simp [eventDeouncer.debounce, hl]
      rw [List.foldl_cons, step, ih d h, ← hC, List.take_left, List.take_left]

theorem foldl_debounce_name (frames : List frame) :
    ∀ d : eventDeouncer, (frames.foldl eventDeouncer.debounce d).name = d.name := by
  induction frames with
  | nil => intro d; rfl
  | cons f rest ih =>
    intro d
    rw [List.foldl_cons, ih]
    by_cases h : d.events.length < eventBufferSize <;> simp [eventDeouncer.debounce, h]

/-! ### Claims -/

/-- C1: within one batch handled by `handleNodeEvent`, each distinct host
address has exactly one resolved event (the accumulator keys are nodup) and
its change kind is the change kind of the last topology/status notification
for that address in batch order; the dispatch invokes exactly the lifecycle
handler given by the mapping NEW_NODE → new-node, REMOVED_NODE →
removed-node, UP → node-up, DOWN → node-down, and MOVED_NODE produces no
handler call; in particular a host receiving [DOWN, UP] resolves to UP and
`handleNodeUp` is invoked exactly once for it. -/
theorem handleNodeEvent_last_write_wins (s : Session) (frames : List frame)
    (addr : String) (e : nodeEvent)
    (hl : lookupEvent addr (aggregate frames) = some e) :
    lastChangeFor addr frames = some e.change
    ∧ ((aggregate frames).map Prod.fst).Nodup
    ∧ (e.change = "NEW_NODE" → dispatchNodeEvent s e = handleNewNode s e.host e.port)
    ∧ (e.change = "REMOVED_NODE" → dispatchNodeEvent s e = handleRemovedNode s e.host e.port)
    ∧ (e.change = "UP" → dispatchNodeEvent s e = handleNodeUp s e.host e.port)
    ∧ (e.change = "DOWN" → dispatchNodeEvent s e = handleNodeDown s e.host e.port)
    ∧ (e.change = "MOVED_NODE" → dispatchNodeEvent s e = (s, []))
    ∧ (∀ ip p, handleNodeEvent s
          [.statusChangeEventFrame ip p "DOWN", .statusChangeEventFrame ip p "UP"]
          = handleNodeUp s ip p) := by
  refine ⟨?_, aggregate_keys_nodup frames, ?_, ?_, ?_, ?_, ?_, ?_⟩
  · have h1 := aggregate_foldl_change addr frames []
    rw [show frames.foldl applyFrame [] = aggregate frames from rfl, hl] at h1
    simpa [lastChangeFor, lookupEvent, lastChangeAux] using h1.symm
  · intro hc; obtain ⟨c, eh, ep⟩ := e; cases hc; rfl
  · intro hc; obtain ⟨c, eh, ep⟩ := e; cases hc; rfl
  · intro hc; obtain ⟨c, eh, ep⟩ := e; cases hc; rfl
  · intro hc; obtain ⟨c, eh, ep⟩ := e; cases hc; rfl
  · intro hc; obtain ⟨c, eh, ep⟩ := e; cases hc; rfl
  · intro ip p
    have hagg : aggregate
        [.statusChangeEventFrame ip p "DOWN", .statusChangeEventFrame ip p "UP"]
        = [(ip, { change := "UP", host := ip, port := p })] := by
      simp [aggregate, applyFrame, frameInfo, containsKey, setChange]
    rw [handleNodeEvent, hagg]
    rfl

theorem handleNodeEvent_last_write_wins_witness :
    lastChangeFor "10.0.0.1"
        [frame.statusChangeEventFrame "10.0.0.1" 9042 "DOWN",
         frame.statusChangeEventFrame "10.0.0.1" 9042 "UP"] = some "UP" :=
  (handleNodeEvent_last_write_wins exNoControl
    [frame.statusChangeEventFrame "10.0.0.1" 9042 "DOWN",
     frame.statusChangeEventFrame "10.0.0.1" 9042 "UP"]
    "10.0.0.1" { change := "UP", host := "10.0.0.1", port := 9042 } (by decide)).1

/-- C2: starting from an empty buffer, a sequence of `debounce` calls
retains exactly the first `min(N, eventBufferSize)` frames in submission
order, and the next flush — when the sequence is non-empty — delivers
exactly those frames in one callback batch, leaving a fresh empty buffer. -/
theorem debounce_buffer_and_flush (nm : String) (frames : List frame) :
    (frames.foldl eventDeouncer.debounce { name := nm, events := [] }).events
        = frames.take eventBufferSize
    ∧ (frames ≠ [] →
        (frames.foldl eventDeouncer.debounce { name := nm, events := [] }).flush
          = ({ name := nm, events := [] }, some (frames.take eventBufferSize))) := by
  have hev : (frames.foldl eventDeouncer.debounce { name := nm, events := [] }).events
      = frames.take eventBufferSize := by
    simpa using foldl_debounce_events frames { name := nm, events := [] } (by simp)
  refine ⟨hev, fun hne => ?_⟩
  have hname := foldl_debounce_name frames { name := nm, events := [] }
  have htake : frames.take eventBufferSize ≠ [] := by
    simp [eventBufferSize, hne]
  rcases hd : frames.foldl eventDeouncer.debounce { name := nm, events := [] } with ⟨n, ev⟩
  rw [hd] at hev hname
  simp only at hev hname
  subst hev hname
  simp [eventDeouncer.flush, List.length_eq_zero, eventBufferSize, hne]

theorem debounce_buffer_and_flush_witness :
    ([frame.statusChangeEventFrame "10.0.0.1" 9042 "UP",
      frame.statusChangeEventFrame "10.0.0.2" 9042 "DOWN"] ≠ ([] : List frame))
    ∧ (([frame.statusChangeEventFrame "10.0.0.1" 9042 "UP",
         frame.statusChangeEventFrame "10.0.0.2" 9042 "DOWN"].foldl
           eventDeouncer.debounce { name := "node events", events := [] }).flush
        = ({ name := "node events", events := [] },
           some ([frame.statusChangeEventFrame "10.0.0.1" 9042 "UP",
                  frame.statusChangeEventFrame "10.0.0.2" 9042 "DOWN"].take eventBufferSize))) :=
  ⟨by decide,
   (debounce_buffer_and_flush "node events"
     [frame.statusChangeEventFrame "10.0.0.1" 9042 "UP",
      frame.statusChangeEventFrame "10.0.0.2" 9042 "DOWN"]).2 (by decide)⟩

/-- C3: `handleNodeUp` with the host present in the ring sets its state to
`NodeUp` and calls `pool.hostUp` with it (never the control-connection
fetch); with the host absent it delegates to `handleNewNode`. -/
theorem handleNodeUp_found_and_absent (s : Session) (ip : String) (port : Nat) :
    (∀ h, getHost ip s.ring = some h →
        handleNodeUp s ip port
          = ({ s with ring := setHost ip (h.setState .NodeUp) s.ring },
             [.hostSetState ip .NodeUp, .poolHostUp (h.setState .NodeUp)])
        ∧ ∀ host2 port2, Action.fetchHostInfo host2 port2 ∉ (handleNodeUp s ip port).2)
    ∧ (getHost ip s.ring = none → handleNodeUp s ip port = handleNewNode s ip port) := by
  constructor
  · intro h hh
    refine ⟨by simp [handleNodeUp, hh], fun host2 port2 => ?_⟩
    simp [handleNodeUp, hh]
  · intro h
    simp [handleNodeUp, h]

theorem handleNodeUp_found_and_absent_witness :
    (handleNodeUp exSession "10.0.0.1" 9042
        = ({ exSession with
              ring := setHost "10.0.0.1" (exHost.setState .NodeUp) exSession.ring },
           [.hostSetState "10.0.0.1" .NodeUp, .poolHostUp (exHost.setState .NodeUp)]))
    ∧ handleNodeUp exEmptySession "10.0.0.1" 9042 = handleNewNode exEmptySession "10.0.0.1" 9042 :=
  ⟨((handleNodeUp_found_and_absent exSession "10.0.0.1" 9042).1 exHost (by decide)).1,
   (handleNodeUp_found_and_absent exEmptySession "10.0.0.1" 9042).2 (by decide)⟩

/-- C4: `handleNewNode` with no control connection configured is a pure
no-op (no collaborator call, state unchanged); when `fetchHostInfo` fails it
returns with the ring unchanged and the only collaborator call being the
single fetch attempt — no pool or ring action and no retry. -/
theorem handleNewNode_no_control_and_fetch_failure (s : Session) (host : String) (port : Nat) :
    (s.control = none → handleNewNode s host port = (s, []))
    ∧ (∀ fetch, s.control = some fetch → fetch host port = none →
        handleNewNode s host port = (s, [.fetchHostInfo host port])) := by
  constructor
  · intro h
    simp [handleNewNode, h]
  · intro fetch hc hf
    simp [handleNewNode, hc, hf]

theorem handleNewNode_no_control_and_fetch_failure_witness :
    handleNewNode exNoControl "10.0.0.1" 9042 = (exNoControl, [])
    ∧ handleNewNode exFailControl "10.0.0.1" 9042
        = (exFailControl, [Action.fetchHostInfo "10.0.0.1" 9042]) :=
  ⟨(handleNewNode_no_control_and_fetch_failure exNoControl "10.0.0.1" 9042).1 rfl,
   (handleNewNode_no_control_and_fetch_failure exFailControl "10.0.0.1" 9042).2 _ rfl rfl⟩

/-- C5: `handleNodeDown` notifies `pool.hostDown(addr)` unconditionally —
with the host found in the ring it additionally sets the host's state to
`NodeDown`; with the host absent it performs only the pool notification and
does not error. -/
theorem handleNodeDown_pool_unconditional (s : Session) (ip : String) (port : Nat) :
    Action.poolHostDown ip ∈ (handleNodeDown s ip port).2
    ∧ (∀ h, getHost ip s.ring = some h →
        handleNodeDown s ip port
          = ({ s with ring := setHost ip (h.setState .NodeDown) s.ring },
             [.hostSetState ip .NodeDown, .poolHostDown ip]))
    ∧ (getHost ip s.ring = none → handleNodeDown s ip port = (s, [.poolHostDown ip])) := by
  refine ⟨?_, fun h hh => by simp [handleNodeDown, hh], fun h => by simp [handleNodeDown, h]⟩
  rcases hg : getHost ip s.ring with _ | h0 <;> simp [handleNodeDown, hg]

theorem handleNodeDown_pool_unconditional_witness :
    handleNodeDown exSession "10.0.0.1" 9042
      = ({ exSession with
            ring := setHost "10.0.0.1" (exHost.setState .NodeDown) exSession.ring },
         [.hostSetState "10.0.0.1" .NodeDown, .poolHostDown "10.0.0.1"])
    ∧ handleNodeDown exEmptySession "10.0.0.2" 9042
        = (exEmptySession, [.poolHostDown "10.0.0.2"]) :=
  ⟨(handleNodeDown_pool_unconditional exSession "10.0.0.1" 9042).2.1 exHost (by decide),
   (handleNodeDown_pool_unconditional exEmptySession "10.0.0.2" 9042).2.2 (by decide)⟩

/-- C6: on a successful fetch, `handleNewNode` adds the fetched host to the
ring when its address is absent, otherwise updates the existing entry in
place and continues with the existing instance; in both cases the resulting
host is then registered with `pool.addHost` and `refreshRing` is requested
afterwards, in that order. -/
theorem handleNewNode_success (s : Session) (host : String) (port : Nat)
    (fetch : String → Nat → Option HostInfo) (hi : HostInfo)
    (hc : s.control = some fetch) (hf : fetch host port = some hi) :
    (getHost hi.peer s.ring = none →
        handleNewNode s host port
          = ({ s with ring := s.ring ++ [(hi.peer, hi)] },
             [.fetchHostInfo host port, .ringAddHostIfMissing hi,
              .poolAddHost hi, .refreshRing]))
    ∧ (∀ existing, getHost hi.peer s.ring = some existing →
        handleNewNode s host port
          = ({ s with ring := setHost hi.peer (existing.update hi) s.ring },
             [.fetchHostInfo host port, .ringAddHostIfMissing hi, .hostUpdate hi.peer,
              .poolAddHost (existing.update hi), .refreshRing])) := by
  constructor
  · intro h
    simp [handleNewNode, hc, hf, addHostIfMissing, h]
  · intro existing h
    simp [handleNewNode, hc, hf, addHostIfMissing, h]

theorem handleNewNode_success_witness :
    handleNewNode exEmptySession "10.0.0.1" 9042
      = ({ exEmptySession with ring := exEmptySession.ring ++ [(exFetched.peer, exFetched)] },
         [.fetchHostInfo "10.0.0.1" 9042, .ringAddHostIfMissing exFetched,
          .poolAddHost exFetched, .refreshRing])
    ∧ handleNewNode exSession "10.0.0.1" 9042
      = ({ exSession with
            ring := setHost exFetched.peer (exHost.update exFetched) exSession.ring },
         [.fetchHostInfo "10.0.0.1" 9042, .ringAddHostIfMissing exFetched,
          .hostUpdate exFetched.peer, .poolAddHost (exHost.update exFetched), .refreshRing]) :=
  ⟨(handleNewNode_success exEmptySession "10.0.0.1" 9042 exFetch exFetched rfl rfl).1
      (by decide),
   (handleNewNode_success exSession "10.0.0.1" 9042 exFetch exFetched rfl rfl).2 exHost
      (by decide)⟩

/-- C7: `handleEvent` routes topology- and status-change frames to the
debouncer, drops schema-change frames, drops the default (unrecognized)
case, and drops frames that failed to parse (`none`); in every case it
makes no collaborator call and leaves the ring and control connection
untouched — it never reaches the aggregator or the lifecycle handlers. -/
theorem handleEvent_routing (s : Session) :
    (∀ parsed, (handleEvent s parsed).2 = []
      ∧ (handleEvent s parsed).1.ring = s.ring
      ∧ (handleEvent s parsed).1.control = s.control)
    ∧ handleEvent s none = (s, [])
    ∧ (∀ host port change,
        handleEvent s (some (.topologyChangeEventFrame host port change))
          = ({ s with
                nodeEvents := s.nodeEvents.debounce (.topologyChangeEventFrame host port change) },
             []))
    ∧ (∀ host port change,
        handleEvent s (some (.statusChangeEventFrame host port change))
          = ({ s with
                nodeEvents := s.nodeEvents.debounce (.statusChangeEventFrame host port change) },
             []))
    ∧ handleEvent s (some .schemaChangeKeyspace) = (s, [])
    ∧ handleEvent s (some .schemaChangeFunction) = (s, [])
    ∧ handleEvent s (some .schemaChangeTable) = (s, [])
    ∧ handleEvent s (some .otherFrame) = (s, []) := by
  refine ⟨?_, rfl, fun host port change => rfl, fun host port change => rfl,
    rfl, rfl, rfl, rfl⟩
  intro parsed
  match parsed with
  | none => exact ⟨rfl, rfl, rfl⟩
  | some f => cases f <;> exact ⟨rfl, rfl, rfl⟩

/-- C8: `flush` on an empty pending sequence returns immediately with no
callback and the state unchanged; a callback batch is handed out only when
the detached batch is non-empty. -/
theorem flush_empty_and_nonempty_only (e : eventDeouncer) :
    (e.events = [] → e.flush = (e, none))
    ∧ (∀ d batch, e.flush = (d, some batch) → batch ≠ []) := by
  constructor
  · intro h
    simp [eventDeouncer.flush, h]
  · intro d batch h hb
    by_cases he : e.events.length = 0
    · simp [eventDeouncer.flush, he] at h
    · simp [eventDeouncer.flush, he] at h
      exact he (by rw [h.2, hb]; rfl)

theorem flush_empty_and_nonempty_only_witness :
    eventDeouncer.flush { name := "node events", events := [] }
      = ({ name := "node events", events := [] }, none) :=
  (flush_empty_and_nonempty_only { name := "node events", events := [] }).1 rfl

/-- C9: the resolved event's host and port for an address come from the
first topology/status notification for that address in the batch; later
notifications only overwrite the change kind, so a later frame with a
different port leaves the resolved port unchanged. -/
theorem aggregate_first_hostport (frames : List frame) (addr : String) (e : nodeEvent)
    (hl : lookupEvent addr (aggregate frames) = some e) :
    firstHostPortFor addr frames = some (e.host, e.port)
    ∧ (∀ ip p1 p2 c1 c2,
        lookupEvent ip (aggregate
            [.topologyChangeEventFrame ip p1 c1, .statusChangeEventFrame ip p2 c2])
          = some { change := c2, host := ip, port := p1 }) := by
  constructor
  · have h1 := aggregate_foldl_hostport addr frames []
    rw [show frames.foldl applyFrame [] = aggregate frames from rfl, hl] at h1
    simpa [firstHostPortFor, lookupEvent, firstHostPortAux] using h1.symm
  · intro ip p1 p2 c1 c2
    simp [aggregate, applyFrame, frameInfo, containsKey, setChange, lookupEvent]

theorem aggregate_first_hostport_witness :
    firstHostPortFor "10.0.0.1"
        [frame.topologyChangeEventFrame "10.0.0.1" 9042 "NEW_NODE",
         frame.statusChangeEventFrame "10.0.0.1" 19042 "UP"]
      = some ("10.0.0.1", 9042) :=
  (aggregate_first_hostport
    [frame.topologyChangeEventFrame "10.0.0.1" 9042 "NEW_NODE",
     frame.statusChangeEventFrame "10.0.0.1" 19042 "UP"]
    "10.0.0.1" { change := "UP", host := "10.0.0.1", port := 9042 } (by decide)).1

/-- C10: `handleRemovedNode` and `handleNodeDown` ignore their port
argument: for a fixed IP, any two ports produce identical results (ring
state and collaborator-call trace), since removal, lookup and the down
notification are keyed solely by the address string. -/
theorem removed_and_down_port_independent (s : Session) (ip : String) (p1 p2 : Nat) :
    handleRemovedNode s ip p1 = handleRemovedNode s ip p2
    ∧ handleNodeDown s ip p1 = handleNodeDown s ip p2 :=
  ⟨rfl, rfl⟩

end gocql
